import Mathlib

/-!
Verification development for the `tk-framework-editorial` repository
(`python/edl/timecode.py` and `python/edl/edl.py`).

The Python source is Python 2 (`except Exception, e` syntax), so `/` on
ints is floor division; all frame arithmetic below therefore uses `Nat`
division on nonnegative values, matching the source on its meaningful
domain (frame numbers are nonnegative).  Frame rates are embedded as
exact rationals; the float literals of the source (`29.97`, `59.94`,
`0.066666`, `600`) round to the same integers under both binary floating
point and exact rational arithmetic at every call site occurring in the
code, so this embedding is value-faithful.  Python strings are embedded
through `String` / `List Char`.
-/

deriving instance DecidableEq for Except

namespace Edl

/- Rational scientific literals such as `29.97`, and rational addition and
multiplication, must evaluate inside `decide` proofs; they are irreducible
by default. -/
attribute [local semireducible] Rat.ofScientific Rat.add Rat.mul

/-! ### Decimal digit strings (model of Python `"%d"` formatting and `int()`) -/

/-- The ASCII character of decimal digit `d` (for `d ≤ 9`). -/
def digitChar (d : ℕ) : Char := Char.ofNat (48 + d)

/-- Value of a decimal digit string, as computed by Python `int()` on an
all-digit string (fold taking each next digit). -/
def digitsToNat (ds : List Char) : ℕ :=
  ds.foldl (fun acc c => 10 * acc + (c.toNat - 48)) 0

/-- Structural worker for `natToDigits`: `fuel` bounds the number of
digits and is always sufficient since `n < 10 ^ fuel` at every call. -/
def natToDigitsAux : ℕ → ℕ → List Char
  | 0, n => [digitChar n]
  | fuel + 1, n =>
    if n < 10 then [digitChar n]
    else natToDigitsAux fuel (n / 10) ++ [digitChar (n % 10)]

/-- Decimal digits of `n`, most significant first, as produced by Python
`"%d" % n` for a nonnegative `n`. -/
def natToDigits (n : ℕ) : List Char := natToDigitsAux n n

/-- Python `"%02d" % n`: the decimal digits of `n` left-padded with `'0'`
to a minimum width of 2. -/
def fmt2 (n : ℕ) : List Char :=
  if n < 10 then '0' :: natToDigits n else natToDigits n

/-- The character list of the timecode string
`"%02d:%02d:%02d%s%02d" % (hours, minutes, seconds, frames_token, frames)`
built by `timecode_from_frame`. -/
def formatTC (h m s f : ℕ) (delim : Char) : List Char :=
  fmt2 h ++ ':' :: (fmt2 m ++ ':' :: (fmt2 s ++ delim :: fmt2 f))

/-! ### The regular expression scan of `Timecode.parse_timecode`

`re.findall(r"\d{2,3}", s)` scans left to right; at each position it
greedily matches three digits if possible, else two digits, else moves
one character forward. -/

/-- All matches of `\d{2,3}` in a character list, in order (model of
`re.findall(r"\d\x7b2,3\x7d", timecode_str)`).  After a two-digit match
that is followed by a character `e`, that `e` is known not to be a digit,
so the scan can resume directly after it (a scan starting at a non-digit
matches nothing there and moves one position forward). -/
def findall23 : List Char → List (List Char)
  | [] => []
  | [_] => []
  | c :: d :: rest =>
    if c.isDigit then
      if d.isDigit then
        match rest with
        | [] => [[c, d]]
        | e :: rest2 =>
          if e.isDigit then [c, d, e] :: findall23 rest2
          else [c, d] :: findall23 rest2
      else findall23 (d :: rest)
    else findall23 (d :: rest)

/-- `Timecode.parse_timecode`: extract the runs of 2–3 digits; exactly
four runs are required, and each is converted with `int()`.  A failure
(`ValueError` in the source) is `none`. -/
def parse_timecode (s : String) : Option (ℕ × ℕ × ℕ × ℕ) :=
  match findall23 s.data with
  | [a, b, c, d] => some (digitsToNat a, digitsToNat b, digitsToNat c, digitsToNat d)
  | _ => none

/-! ### Python 2 `round` and `int(round(...))` on rationals -/

/-- Floor of a rational, computed from its reduced fraction. -/
def ratFloor (q : ℚ) : ℤ := q.num.fdiv q.den

/-- Python 2 `round`: round half away from zero. -/
def pyRound (q : ℚ) : ℤ :=
  if 0 ≤ q then ratFloor (q + 0.5) else -ratFloor (-q + 0.5)

/-- Python 2 `int(round(q))` for the nonnegative rates used throughout the
source (negative rates are outside the embedded domain). -/
def pyRoundNat (q : ℚ) : ℕ := (pyRound q).toNat

/-- `fps_int = int(round(fps))`. -/
def fpsInt (fps : ℚ) : ℕ := pyRoundNat fps

/-! ### Errors

One constructor per Python exception kind raised by the embedded code.
`read_cmx_edl` re-raises any exception with the offending line appended to
its message but preserves its type, so the kind is the whole observable. -/

inductive PyErr where
  | valueError
  | badFrameRate
  | notImplemented
  | attributeError
  | runtimeError
  | indexError
deriving DecidableEq, Repr

/-! ### `timecode.py`: frame/timecode conversion -/

/-- `DROP_FRAME_DELIMITER = ";"`. -/
def DROP_FRAME_DELIMITER : Char := ';'

/-- `NON_DROP_FRAME_DELIMITER = ":"`. -/
def NON_DROP_FRAME_DELIMITER : Char := ':'

/-- `drop_frames_per_minute = int(round(fps * .066666))` (also
`drop_frames` in `timecode_from_frame`). -/
def dropFramesPerMin (fps : ℚ) : ℕ := pyRoundNat (fps * 0.066666)

/-- The core arithmetic of `frame_from_timecode` on an
`(hours, minutes, seconds, frames)` tuple.  Mirrors the source:
`frame_number = frames_per_hour*hours + frames_per_minute*minutes +
fps_int*seconds + frames` minus
`drop_frames_per_minute * (total_minutes - total_minutes / 10)`
(Python 2 integer division).  The result is a Python int, embedded as `ℤ`. -/
def frame_from_timecode_tuple (hmsf : ℕ × ℕ × ℕ × ℕ) (fps : ℚ) (drop : Bool) : ℤ :=
  let hours := hmsf.1
  let minutes := hmsf.2.1
  let seconds := hmsf.2.2.1
  let frames := hmsf.2.2.2
  let drop_frames_per_minute : ℕ := if drop then dropFramesPerMin fps else 0
  let F := fpsInt fps
  let frames_per_hour := F * 60 * 60
  let frames_per_minute := F * 60
  let total_minutes := 60 * hours + minutes
  let frame_number : ℕ :=
    frames_per_hour * hours + frames_per_minute * minutes + F * seconds + frames
  let frames_to_drop : ℕ := drop_frames_per_minute * (total_minutes - total_minutes / 10)
  (frame_number : ℤ) - (frames_to_drop : ℤ)

/-- `frame_from_timecode` on a timecode string: raises
`NotImplementedError` for drop frame at an unsupported rate, parses the
string (a `ValueError` when it does not contain exactly four 2–3 digit
fields), and applies the tuple arithmetic. -/
def frame_from_timecode (timecode : String) (fps : ℚ) (drop : Bool) : Except PyErr ℤ :=
  if drop ∧ ¬(fps = 29.97 ∨ fps = 59.94) then .error .notImplemented
  else
    match parse_timecode timecode with
    | some t => .ok (frame_from_timecode_tuple t fps drop)
    | none => .error .valueError

/-- The drop-frame add-back block of `timecode_from_frame`: computes
`frame_number + add_frames` from the ten-minute chunk decomposition.
All divisions are Python 2 integer divisions on nonnegative ints. -/
def dropAdjust (n : ℕ) (fps : ℚ) : ℕ :=
  let drop_frames := dropFramesPerMin fps
  let frames_per_10_mins := pyRoundNat (fps * 600)
  let frames_per_min := fpsInt fps * 60 - drop_frames
  let additional_frames_per_10m := drop_frames * 9
  let additional_frames_per_1m := drop_frames
  let ten_minute_chunks := n / frames_per_10_mins
  let remaining_frames := n % frames_per_10_mins
  let add_frames :=
    if drop_frames < remaining_frames then
      additional_frames_per_10m * ten_minute_chunks +
        additional_frames_per_1m * ((remaining_frames - drop_frames) / frames_per_min)
    else
      additional_frames_per_10m * ten_minute_chunks
  n + add_frames

/-- The frame number actually split into fields by `timecode_from_frame`:
the input frame number, plus the drop-frame add-back in drop mode. -/
def adjustedFrame (n : ℕ) (fps : ℚ) (drop : Bool) : ℕ :=
  if drop then dropAdjust n fps else n

/-- The field split and formatting at the end of `timecode_from_frame`:
`hours = N / (3600*F)`, `minutes = N / (60*F) % 60`, `seconds = N / F % 60`,
`frames = N % F`, rendered as `"%02d:%02d:%02d%s%02d"`. -/
def tffCore (N F : ℕ) (delim : Char) : String :=
  String.mk (formatTC (N / (3600 * F)) (N / (60 * F) % 60) (N / F % 60) (N % F) delim)

/-- `timecode_from_frame(frame_number, fps, drop)` for a nonnegative frame
number: unsupported drop rates raise `NotImplementedError`; otherwise the
(possibly drop-adjusted) frame number is split into fields and formatted
with `;` as the frames delimiter in drop mode and `:` otherwise. -/
def timecode_from_frame (frame_number : ℕ) (fps : ℚ) (drop : Bool) : Except PyErr String :=
  if drop ∧ ¬(fps = 29.97 ∨ fps = 59.94) then .error .notImplemented
  else .ok (tffCore (adjustedFrame frame_number fps drop) (fpsInt fps)
    (if drop then DROP_FRAME_DELIMITER else NON_DROP_FRAME_DELIMITER))

/-- The round trip of claim C1:
`frame_from_timecode(timecode_from_frame(frame, fps, drop), fps, drop)`. -/
def tcfRoundTrip (n : ℕ) (fps : ℚ) (drop : Bool) : Except PyErr ℤ :=
  (timecode_from_frame n fps drop).bind fun s => frame_from_timecode s fps drop

/-! ### The `Timecode` class -/

/-- The state of a constructed `Timecode` object (`_hours`, `_minutes`,
`_seconds`, `_frames`, `_fps`, `_drop`; the `_frame_delimiter` field is
determined by `_drop` and is reproduced by `Timecode.toStr`). -/
structure Timecode where
  hours : ℕ
  minutes : ℕ
  seconds : ℕ
  frames : ℕ
  fps : ℚ
  drop : Bool
deriving DecidableEq, Repr

/-- Python `int()` applied to a token, for the nonnegative all-digit
strings that occur as frame-number fallbacks in this code base (signed or
whitespace-padded int literals are outside the embedded domain). -/
def pyIntOfString (s : String) : Option ℕ :=
  if s.data ≠ [] ∧ s.data.all Char.isDigit then some (digitsToNat s.data) else none

/-- The validation at the end of `Timecode.__init__`: minutes and seconds
must be at most 59 (`ValueError`), and the frames field must be smaller
than the exact `fps` value (`BadFrameRateError`); the hours check is
commented out in the source, so hours are unrestricted. -/
def Timecode.checks (h m sec f : ℕ) (fps : ℚ) (drop : Bool) : Except PyErr Timecode :=
  if 59 < m then .error .valueError
  else if 59 < sec then .error .valueError
  else if (f : ℚ) ≥ fps then .error .badFrameRate
  else .ok { hours := h, minutes := m, seconds := sec, frames := f, fps := fps, drop := drop }

/-- `Timecode.__init__(timecode_string, fps, drop)`: parse the string; on
a parse `ValueError`, fall back to reading it as a frame number and
converting with `timecode_from_frame` (whose `NotImplementedError` for
unsupported drop rates is not caught and propagates); if neither works the
constructor raises a `ValueError`; finally run the range checks. -/
def Timecode.init (timecode_string : String) (fps : ℚ) (drop : Bool) : Except PyErr Timecode :=
  match parse_timecode timecode_string with
  | some (h, m, sec, f) => Timecode.checks h m sec f fps drop
  | none =>
    match pyIntOfString timecode_string with
    | some n =>
      match timecode_from_frame n fps drop with
      | .error e => .error e
      | .ok s2 =>
        match parse_timecode s2 with
        | some (h, m, sec, f) => Timecode.checks h m sec f fps drop
        | none => .error .valueError
    | none => .error .valueError

/-- `Timecode.to_frame()`. -/
def Timecode.toFrame (t : Timecode) : ℤ :=
  frame_from_timecode_tuple (t.hours, t.minutes, t.seconds, t.frames) t.fps t.drop

/-- `Timecode.__str__()`. -/
def Timecode.toStr (t : Timecode) : String :=
  String.mk (formatTC t.hours t.minutes t.seconds t.frames
    (if t.drop then DROP_FRAME_DELIMITER else NON_DROP_FRAME_DELIMITER))

/-! ### Python string helpers used by `read_cmx_edl` -/

/-- `p` is a prefix of `s` (Python `s.startswith(p)`). -/
def strStartsWith (p s : String) : Bool := p.data.isPrefixOf s.data

/-- The character set stripped by `line.strip(" \n")`. -/
def isStripChar (c : Char) : Bool := c = ' ' || c = '\n'

/-- Strip characters of `isStripChar` from both ends of a character list. -/
def stripSpaceNl (l : List Char) : List Char :=
  ((l.dropWhile isStripChar).reverse.dropWhile isStripChar).reverse

/-- `line.replace("\x1a", "").strip(" \n")`: remove the stray end-of-file
marker bytes and surrounding spaces/newlines. -/
def normalizeLine (raw : String) : String :=
  String.mk (stripSpaceNl (raw.data.filter (fun c => c ≠ '\x1a')))

/-- Structural worker for `splitWs`: returns the (possibly empty)
non-whitespace run at the head of the list together with the remaining
tokens. -/
def splitWsCore : List Char → List Char × List (List Char)
  | [] => ([], [])
  | c :: rest =>
    let (tok, toks) := splitWsCore rest
    if c.isWhitespace then ([], if tok = [] then toks else tok :: toks)
    else (c :: tok, toks)

/-- Whitespace-token split, model of Python `line.split()`: maximal runs
of non-whitespace characters, in order; never produces empty tokens. -/
def splitWs (l : List Char) : List (List Char) :=
  let (tok, toks) := splitWsCore l
  if tok = [] then toks else tok :: toks

/-- `line.split()` producing `String` tokens. -/
def pySplit (s : String) : List String := (splitWs s.data).map String.mk

/-- `" ".join(tokens)`. -/
def joinSpace (toks : List String) : String := String.intercalate " " toks

/-- Python `str.isdigit()`: nonempty and all characters decimal digits. -/
def pyIsdigit (s : String) : Bool := !s.data.isEmpty && s.data.all Char.isDigit

/-! ### `EditEvent` -/

/-- The value universe for `EditEvent` runtime attributes (the visitor
extension mechanism).  Callables and the raw metadata dictionary are
abstracted as `other` tags: the source never stores them in
`_meta_data` and no claim observes their payload. -/
inductive PyVal where
  | str (s : String)
  | int (n : ℤ)
  | bool (b : Bool)
  | strList (l : List String)
  | tc (t : Timecode)
  | tcList (l : List Timecode)
  | pyNone
  | other (tag : String)
deriving DecidableEq, Repr

/-- Python-dict lookup in an association list. -/
def dictGet : List (String × PyVal) → String → Option PyVal
  | [], _ => none
  | (k, v) :: t, key => if k = key then some v else dictGet t key

/-- Python-dict assignment `d[key] = v` in an association list. -/
def dictSet : List (String × PyVal) → String → PyVal → List (String × PyVal)
  | [], key, v => [(key, v)]
  | (k, w) :: t, key, v => if k = key then (k, v) :: t else (k, w) :: dictSet t key v

/-- An `EditEvent`: one entry of an edit list.  Fields mirror the
`__mine` instance attributes `_effect`, `_comments`, `_meta_data`,
`_retime`, `_id`, `_reel`, `_channels`, `_source_in`, `_source_out`,
`_record_in`, `_record_out`. -/
structure EditEvent where
  effect : List String
  comments : List String
  meta_data : List (String × PyVal)
  retime : Option String
  id : ℤ
  reel : String
  channels : String
  source_in : Timecode
  source_out : Timecode
  record_in : Timecode
  record_out : Timecode
deriving DecidableEq, Repr

/-- `EditEvent.__protected`: the accessor names whose redefinition is
refused (the `__mine` names with the leading underscore stripped). -/
def protectedAttrs : List String :=
  ["effect", "comments", "meta_data", "retime", "id", "reel", "channels",
   "source_in", "source_out", "record_in", "record_out"]

/-- `EditEvent.__mine`: the internal instance attribute names. -/
def mineAttrs : List String :=
  ["_effect", "_comments", "_meta_data", "_retime", "_id", "_reel", "_channels",
   "_source_in", "_source_out", "_record_in", "_record_out"]

/-- The class-level attribute names of `EditEvent` (properties and
methods).  A Python read of one of these never reaches `__getattr__`, and
one of these names is never "novel". -/
def editEventClassAttrs : List String :=
  ["id", "reel", "comments", "timecodes", "source_in", "source_out",
   "source_duration", "record_in", "record_out", "record_duration",
   "has_effect", "add_effect", "add_comments", "has_retime", "add_retime"]

/-- The effect of `object.__setattr__` for a name of `__mine`: stores the
value in the corresponding slot.  The slots are typed in this embedding,
so a value whose shape does not fit the slot leaves the event unchanged
(no claim exercises those combinations). -/
def setMineAttr (e : EditEvent) (name : String) (v : PyVal) : EditEvent :=
  match name, v with
  | "_effect", .strList l => { e with effect := l }
  | "_comments", .strList l => { e with comments := l }
  | "_retime", .str s => { e with retime := some s }
  | "_retime", .pyNone => { e with retime := none }
  | "_id", .int n => { e with id := n }
  | "_reel", .str s => { e with reel := s }
  | "_channels", .str s => { e with channels := s }
  | "_source_in", .tc t => { e with source_in := t }
  | "_source_out", .tc t => { e with source_out := t }
  | "_record_in", .tc t => { e with record_in := t }
  | "_record_out", .tc t => { e with record_out := t }
  | _, _ => e

/-- `EditEvent.__setattr__(attr_name, value)`: protected accessor names
raise `AttributeError`; `__mine` names go to the instance slot; any other
name is stored in the `_meta_data` dictionary. -/
def EditEvent.setAttr (e : EditEvent) (name : String) (v : PyVal) : Except PyErr EditEvent :=
  if name ∈ protectedAttrs then .error .attributeError
  else if name ∈ mineAttrs then .ok (setMineAttr e name v)
  else .ok { e with meta_data := dictSet e.meta_data name v }

/-- Python attribute read on an `EditEvent`: instance attributes and class
properties are found by normal lookup; only otherwise is `__getattr__`
consulted, which looks the name up in `_meta_data` and raises
`AttributeError` when it is absent.  Bound methods and the properties
`has_effect` / `has_retime` (the former reads the nonexistent attribute
`self._effects`, a slip in the source) are abstracted as `other` tags. -/
def EditEvent.getAttr (e : EditEvent) (name : String) : Except PyErr PyVal :=
  if name = "_effect" then .ok (.strList e.effect)
  else if name = "_comments" then .ok (.strList e.comments)
  else if name = "_meta_data" then .ok (.other "_meta_data")
  else if name = "_retime" then
    .ok (match e.retime with | some s => .str s | none => .pyNone)
  else if name = "_id" then .ok (.int e.id)
  else if name = "_reel" then .ok (.str e.reel)
  else if name = "_channels" then .ok (.str e.channels)
  else if name = "_source_in" then .ok (.tc e.source_in)
  else if name = "_source_out" then .ok (.tc e.source_out)
  else if name = "_record_in" then .ok (.tc e.record_in)
  else if name = "_record_out" then .ok (.tc e.record_out)
  else if name = "id" then .ok (.int e.id)
  else if name = "reel" then .ok (.str e.reel)
  else if name = "comments" then .ok (.strList e.comments)
  else if name = "timecodes" then
    .ok (.tcList [e.source_in, e.source_out, e.record_in, e.record_out])
  else if name = "source_in" then .ok (.tc e.source_in)
  else if name = "source_out" then .ok (.tc e.source_out)
  else if name = "source_duration" then .ok (.int (e.source_out.toFrame - e.source_in.toFrame))
  else if name = "record_in" then .ok (.tc e.record_in)
  else if name = "record_out" then .ok (.tc e.record_out)
  else if name = "record_duration" then .ok (.int (e.record_out.toFrame - e.record_in.toFrame))
  else if name ∈ editEventClassAttrs then .ok (.other name)
  else
    match dictGet e.meta_data name with
    | some v => .ok v
    | none => .error .attributeError

/-- `EditEvent.add_comments(comments)`: append the line to `_comments`. -/
def EditEvent.addComments (e : EditEvent) (line : String) : EditEvent :=
  { e with comments := e.comments ++ [line] }

/-- `EditEvent.add_effect(tokens)`: append `" ".join(tokens)` to `_effect`. -/
def EditEvent.addEffect (e : EditEvent) (toks : List String) : EditEvent :=
  { e with effect := e.effect ++ [joinSpace toks] }

/-- `EditEvent.add_retime(tokens)`: set `_retime` to `" ".join(tokens)`. -/
def EditEvent.addRetime (e : EditEvent) (toks : List String) : EditEvent :=
  { e with retime := some (joinSpace toks) }

/-- `EditEvent.__init__` as invoked from the parser's cut branch: the four
timecode tokens are the last four tokens of the line (negative indexing),
and each `Timecode` is constructed at the list's fps with the default
`drop=False`; construction failures propagate in source order
(`source_in`, `source_out`, `record_in`, `record_out`). -/
def mkEditEvent (fps : ℚ) (toks : List String) : Except PyErr EditEvent :=
  match toks with
  | t0 :: t1 :: t2 :: _ =>
    match toks.reverse with
    | rout :: rin :: sout :: sin :: _ => do
      let si ← Timecode.init sin fps false
      let so ← Timecode.init sout fps false
      let ri ← Timecode.init rin fps false
      let ro ← Timecode.init rout fps false
      .ok { effect := [], comments := [], meta_data := [], retime := none,
            id := (digitsToNat t0.data : ℤ), reel := t1, channels := t2,
            source_in := si, source_out := so, record_in := ri, record_out := ro }
    | _ => .error .indexError
  | _ => .error .indexError

/-! ### `EditList.read_cmx_edl`: the line-oriented parser

The source appends each new event to `self._edits` at creation and keeps
mutating it through the `edit` variable while it stays current.  Here the
current event is carried separately in `cur` and appended to `done` when
the next event begins, so at end of parse `done ++ cur.toList` equals the
source's final `self._edits`.  `visited` records each `visitor(edit, ...)`
invocation (the visitor is modelled as a pure observer; `useVisitor`
states whether a visitor was supplied). -/

structure PState where
  title : Option String
  done : List EditEvent
  cur : Option EditEvent
  visited : List EditEvent
deriving DecidableEq, Repr

/-- The parser state at the start of `read_cmx_edl` (title and edits are
reset). -/
def initPState : PState := { title := none, done := [], cur := none, visited := [] }

/-- Processing of a single line of the loop body of `read_cmx_edl`. -/
def processLine (fps : ℚ) (useVisitor : Bool) (st : PState) (raw : String) :
    Except PyErr PState :=
  let line := normalizeLine raw
  if line = "" then .ok st
  else
    let line_tokens := pySplit line
    if strStartsWith "TITLE:" line then
      .ok (if 1 < line_tokens.length then
        { st with title := some (joinSpace line_tokens.tail) } else st)
    else if strStartsWith "FCM:" line then
      match line_tokens[1]? with
      | none => .error .indexError
      | some t => if t = "DROP FRAME" then .error .notImplemented else .ok st
    else
      match line_tokens with
      | [] => .error .indexError
      | t0 :: _ =>
        if t0.data.head? = some '*' then
          match st.cur with
          | none => .ok st
          | some e => .ok { st with cur := some (e.addComments line) }
        else if t0 = "M2" then
          match st.cur with
          | none => .error .runtimeError
          | some e => .ok { st with cur := some (e.addRetime line_tokens) }
        else if pyIsdigit t0 then
          let st1 : PState :=
            if useVisitor then { st with visited := st.visited ++ st.cur.toList } else st
          match line_tokens[3]? with
          | none => .error .indexError
          | some ty =>
            if ty = "C" then
              match mkEditEvent fps line_tokens with
              | .error err => .error err
              | .ok ed =>
                .ok { st1 with done := st1.done ++ st1.cur.toList, cur := some ed }
            else
              match st1.cur with
              | none => .error .runtimeError
              | some e => .ok { st1 with cur := some (e.addEffect line_tokens) }
        else .ok st

/-- The final visitor flush at end of input: `if edit and visitor:
visitor(edit, ...)`. -/
def flushVisit (useVisitor : Bool) (st : PState) : PState :=
  if useVisitor then { st with visited := st.visited ++ st.cur.toList } else st

/-- `EditList.read_cmx_edl(path, fps, visitor)` on the file's lines.  Any
exception aborts the parse; `read_cmx_edl` re-raises it with the offending
line appended to its message, preserving its kind. -/
def readCmxEdl (fps : ℚ) (useVisitor : Bool) (lines : List String) : Except PyErr PState :=
  (lines.foldlM (processLine fps useVisitor) initPState).map (flushVisit useVisitor)

/-- The final `self._edits` list of a completed parse. -/
def PState.edits (st : PState) : List EditEvent := st.done ++ st.cur.toList

/-- Whether a line reaches the parser's numeric branch with a type token
other than `"C"` (an effect/transition continuation line).  The condition
chain mirrors `processLine`. -/
def isNumericEffectLine (raw : String) : Bool :=
  let line := normalizeLine raw
  if line = "" then false
  else
    let line_tokens := pySplit line
    if strStartsWith "TITLE:" line then false
    else if strStartsWith "FCM:" line then false
    else
      match line_tokens with
      | [] => false
      | t0 :: _ =>
        if t0.data.head? = some '*' then false
        else if t0 = "M2" then false
        else if pyIsdigit t0 then
          match line_tokens[3]? with
          | none => false
          | some ty => ty ≠ "C"
        else false

/-- Bool observer for claim C8: in a successful parse, the visit log is
exactly the final edit list (each edit visited once, in order). -/
def visitedMatchesEdits (r : Except PyErr PState) : Bool :=
  match r with
  | .ok st => st.visited == st.edits
  | .error _ => true




/-- A concrete timecode used by witness theorems. -/
def sampleTc : Timecode :=
  { hours := 0, minutes := 0, seconds := 0, frames := 1, fps := 24, drop := false }

/-- A concrete edit event used by witness theorems. -/
def sampleEvent : EditEvent :=
  { effect := [], comments := [], meta_data := [], retime := none,
    id := 1, reel := "AX", channels := "V",
    source_in := sampleTc, source_out := sampleTc,
    record_in := sampleTc, record_out := sampleTc }

/-! ## Lemmas -/

theorem digitChar_isDigit {d : ℕ} (h : d < 10) : (digitChar d).isDigit = true := by
  interval_cases d <;> decide

theorem digitChar_toNat {d : ℕ} (h : d < 10) : (digitChar d).toNat = 48 + d := by
  interval_cases d <;> decide

theorem natToDigitsAux_irrel (f1 : ℕ) : ∀ f2 n, n ≤ f1 → n ≤ f2 →
    natToDigitsAux f1 n = natToDigitsAux f2 n := by
  induction f1 with
  | zero =>
    intro f2 n h1 _
    interval_cases n
    cases f2 <;> simp [natToDigitsAux]
  | succ f ih =>
    intro f2 n h1 h2
    match f2 with
    | 0 =>
      interval_cases n
      simp [natToDigitsAux]
    | g + 1 =>
      by_cases hn : n < 10
      · simp [natToDigitsAux, hn]
      · have hlt : n / 10 < n := Nat.div_lt_self (by omega) (by norm_num)
        have hd : n / 10 ≤ f := by omega
        have hd2 : n / 10 ≤ g := by omega
        simp only [natToDigitsAux, if_neg hn]
        rw [ih g (n / 10) hd hd2]

theorem natToDigits_eq (n : ℕ) : natToDigits n =
    if n < 10 then [digitChar n] else natToDigits (n / 10) ++ [digitChar (n % 10)] := by
  by_cases hn : n < 10
  · rw [if_pos hn]
    unfold natToDigits
    match n, hn with
    | 0, _ => simp [natToDigitsAux]
    | m + 1, hm => simp [natToDigitsAux, hm]
  · rw [if_neg hn]
    unfold natToDigits
    match n, hn with
    | m + 1, hm =>
      simp only [natToDigitsAux, if_neg hm]
      have hd : (m + 1) / 10 ≤ m := by
        have hlt : (m + 1) / 10 < m + 1 := Nat.div_lt_self (by omega) (by norm_num)
        omega
      rw [natToDigitsAux_irrel m ((m+1)/10) ((m+1)/10) hd (le_refl _)]

theorem natToDigits_all_digit (n : ℕ) : ∀ c ∈ natToDigits n, c.isDigit = true := by
  induction n using Nat.strong_induction_on with
  | _ n ih =>
    rw [natToDigits_eq]
    by_cases hn : n < 10
    · simp [hn]
      exact digitChar_isDigit hn
    · simp only [if_neg hn, List.mem_append, List.mem_singleton]
      rintro c (hc | rfl)
      · exact ih (n / 10) (Nat.div_lt_self (by omega) (by omega)) c hc
      · exact digitChar_isDigit (Nat.mod_lt _ (by omega))

theorem digitsToNat_append_one (xs : List Char) (c : Char) :
    digitsToNat (xs ++ [c]) = 10 * digitsToNat xs + (c.toNat - 48) := by
  simp [digitsToNat, List.foldl_append]

theorem digitsToNat_natToDigits (n : ℕ) : digitsToNat (natToDigits n) = n := by
  induction n using Nat.strong_induction_on with
  | _ n ih =>
    rw [natToDigits_eq]
    by_cases hn : n < 10
    · simp [hn, digitsToNat, digitChar_toNat hn]
    · rw [if_neg hn, digitsToNat_append_one,
        ih (n / 10) (Nat.div_lt_self (by omega) (by omega)),
        digitChar_toNat (Nat.mod_lt _ (by omega))]
      omega

theorem natToDigits_length_two {n : ℕ} (h1 : 10 ≤ n) (h2 : n < 100) :
    (natToDigits n).length = 2 := by
  rw [natToDigits_eq, if_neg (by omega), natToDigits_eq, if_pos (by omega)]
  simp

theorem natToDigits_length_three {n : ℕ} (h1 : 100 ≤ n) (h2 : n < 1000) :
    (natToDigits n).length = 3 := by
  rw [natToDigits_eq, if_neg (by omega)]
  have : (natToDigits (n / 10)).length = 2 := natToDigits_length_two (by omega) (by omega)
  simp [this]

theorem fmt2_all_digit (n : ℕ) : ∀ c ∈ fmt2 n, c.isDigit = true := by
  unfold fmt2
  by_cases hn : n < 10
  · simp only [if_pos hn, List.mem_cons]
    rintro c (rfl | hc)
    · decide
    · exact natToDigits_all_digit n c hc
  · simp only [if_neg hn]
    exact natToDigits_all_digit n

theorem fmt2_length {n : ℕ} (h : n < 1000) :
    (fmt2 n).length = 2 ∨ (fmt2 n).length = 3 := by
  unfold fmt2
  by_cases h1 : n < 10
  · left
    rw [if_pos h1, natToDigits_eq, if_pos h1]
    simp
  · rw [if_neg h1]
    by_cases h2 : n < 100
    · left
      exact natToDigits_length_two (by omega) h2
    · right
      exact natToDigits_length_three (by omega) h

theorem fmt2_length_two {n : ℕ} (h : n < 100) : (fmt2 n).length = 2 := by
  unfold fmt2
  by_cases h1 : n < 10
  · rw [if_pos h1, natToDigits_eq, if_pos h1]
    simp
  · rw [if_neg h1]
    exact natToDigits_length_two (by omega) h

theorem digitsToNat_fmt2 (n : ℕ) : digitsToNat (fmt2 n) = n := by
  unfold fmt2
  by_cases hn : n < 10
  · rw [if_pos hn, natToDigits_eq, if_pos hn]
    simp [digitsToNat, digitChar_toNat hn]
  · rw [if_neg hn]
    exact digitsToNat_natToDigits n

theorem findall23_skip {c : Char} (l : List Char) (hc : c.isDigit = false) :
    findall23 (c :: l) = findall23 l := by
  match l with
  | [] => rfl
  | d :: rest =>
    rw [findall23.eq_def]
    simp [hc]

theorem findall23_run2 {a b : Char} (l : List Char)
    (ha : a.isDigit = true) (hb : b.isDigit = true)
    (hl : ∀ x, l.head? = some x → x.isDigit = false) :
    findall23 (a :: b :: l) = [a, b] :: findall23 l := by
  match l with
  | [] =>
    rw [findall23.eq_def]
    simp [ha, hb, findall23]
  | e :: rest =>
    have he : e.isDigit = false := hl e rfl
    rw [findall23.eq_def]
    simp only [ha, hb, he, if_true, if_false, Bool.false_eq_true]
    rw [findall23_skip rest he]

theorem findall23_run3 {a b c : Char} (l : List Char)
    (ha : a.isDigit = true) (hb : b.isDigit = true) (hc : c.isDigit = true) :
    findall23 (a :: b :: c :: l) = [a, b, c] :: findall23 l := by
  rw [findall23.eq_def]
  simp [ha, hb, hc]

/-- A 2- or 3-digit run followed by a non-digit boundary is extracted as a
single field. -/
theorem findall23_run (ds l : List Char)
    (hd : ∀ c ∈ ds, c.isDigit = true)
    (hlen : ds.length = 2 ∨ ds.length = 3)
    (hnext : ∀ x, l.head? = some x → x.isDigit = false) :
    findall23 (ds ++ l) = ds :: findall23 l := by
  rcases hlen with h2 | h3
  · match ds, h2 with
    | [a, b], _ =>
      exact findall23_run2 l (hd a (by simp)) (hd b (by simp)) hnext
  · match ds, h3 with
    | [a, b, c], _ =>
      exact findall23_run3 l (hd a (by simp)) (hd b (by simp)) (hd c (by simp))

/-- Scanning the full formatted timecode string yields exactly the four
zero-padded fields. -/
theorem findall23_formatTC {h m s f : ℕ} (delim : Char)
    (hh : h < 1000) (hm : m < 100) (hs : s < 100) (hf : f < 1000)
    (hdelim : delim.isDigit = false) :
    findall23 (formatTC h m s f delim) = [fmt2 h, fmt2 m, fmt2 s, fmt2 f] := by
  unfold formatTC
  have hcolon : ∀ (t : List Char) (x : Char), (':' :: t).head? = some x → x.isDigit = false := by
    intro t x hx
    simp only [List.head?_cons, Option.some.injEq] at hx
    subst hx
    decide
  have hdel : ∀ (t : List Char) (x : Char), (delim :: t).head? = some x → x.isDigit = false := by
    intro t x hx
    simp only [List.head?_cons, Option.some.injEq] at hx
    subst hx
    exact hdelim
  rw [findall23_run _ _ (fmt2_all_digit h) (fmt2_length hh) (hcolon _),
      findall23_skip _ (by decide),
      findall23_run _ _ (fmt2_all_digit m) (fmt2_length (by omega)) (hcolon _),
      findall23_skip _ (by decide),
      findall23_run _ _ (fmt2_all_digit s) (fmt2_length (by omega)) (hdel _),
      findall23_skip _ hdelim,
      show fmt2 f = fmt2 f ++ [] by simp,
      findall23_run _ _ (fmt2_all_digit f) (fmt2_length hf) (by intro x hx; simp at hx)]
  simp [findall23]

/-- Parsing the formatted string recovers the four field values. -/
theorem parse_formatTC {h m s f : ℕ} (delim : Char)
    (hh : h < 1000) (hm : m < 100) (hs : s < 100) (hf : f < 1000)
    (hdelim : delim.isDigit = false) :
    parse_timecode (String.mk (formatTC h m s f delim)) = some (h, m, s, f) := by
  unfold parse_timecode
  rw [show (String.mk (formatTC h m s f delim)).data = formatTC h m s f delim from rfl,
    findall23_formatTC delim hh hm hs hf hdelim]
  simp [digitsToNat_fmt2]

/-- Splitting a frame count into `hours/minutes/seconds/frames` fields and
recombining them with the non-drop weights recovers the frame count, and
the recombined total minutes equal `N / (60*F)`. -/
theorem base_split (N F : ℕ) :
    F * 60 * 60 * (N / (3600 * F)) + F * 60 * (N / (60 * F) % 60) +
      F * (N / F % 60) + N % F = N ∧
    60 * (N / (3600 * F)) + N / (60 * F) % 60 = N / (60 * F) := by
  have h1 : F * (N / F) + N % F = N := Nat.div_add_mod N F
  have e1 : N / F / 60 = N / (60 * F) := by
    rw [Nat.div_div_eq_div_mul, Nat.mul_comm]
  have h2 : 60 * (N / (60 * F)) + N / F % 60 = N / F := by
    have := Nat.div_add_mod (N / F) 60
    rw [e1] at this
    exact this
  have e2 : N / (60 * F) / 60 = N / (3600 * F) := by
    rw [Nat.div_div_eq_div_mul]
    congr 1
    ring
  have h3 : 60 * (N / (3600 * F)) + N / (60 * F) % 60 = N / (60 * F) := by
    have := Nat.div_add_mod (N / (60 * F)) 60
    rw [e2] at this
    exact this
  refine ⟨?_, h3⟩
  calc F * 60 * 60 * (N / (3600 * F)) + F * 60 * (N / (60 * F) % 60) +
        F * (N / F % 60) + N % F
      = F * 60 * (60 * (N / (3600 * F)) + N / (60 * F) % 60) + (F * (N / F % 60) + N % F) := by
        ring
    _ = F * 60 * (N / (60 * F)) + (F * (N / F % 60) + N % F) := by rw [h3]
    _ = F * (60 * (N / (60 * F)) + N / F % 60) + N % F := by ring
    _ = F * (N / F) + N % F := by rw [h2]
    _ = N := h1

/-- The 29.97 fps drop-frame add-back is exactly the number of frames the
forward transform drops for the resulting total minutes. -/
theorem drop_add_eq30 (n add N : ℕ)
    (hadd : add = if 2 < n % 17982 then
        2 * 9 * (n / 17982) + 2 * ((n % 17982 - 2) / 1798)
      else 2 * 9 * (n / 17982))
    (hN : N = n + add) :
    add = 2 * (N / 1800 - N / 1800 / 10) := by
  split at hadd <;> omega

/-- The 59.94 fps drop-frame add-back is exactly the number of frames the
forward transform drops for the resulting total minutes. -/
theorem drop_add_eq60 (n add N : ℕ)
    (hadd : add = if 4 < n % 35964 then
        4 * 9 * (n / 35964) + 4 * ((n % 35964 - 4) / 3596)
      else 4 * 9 * (n / 35964))
    (hN : N = n + add) :
    add = 4 * (N / 3600 - N / 3600 / 10) := by
  split at hadd <;> omega

theorem tffCore_parse {N F : ℕ} (delim : Char) (hF : 0 < F) (hF2 : F ≤ 1000)
    (hb : N < 3600 * F * 1000) (hdelim : delim.isDigit = false) :
    parse_timecode (tffCore N F delim) =
      some (N / (3600 * F), N / (60 * F) % 60, N / F % 60, N % F) := by
  have hh : N / (3600 * F) < 1000 := by
    rw [Nat.div_lt_iff_lt_mul (by omega)]
    calc N < 3600 * F * 1000 := hb
    _ = 1000 * (3600 * F) := by ring
  have hm : N / (60 * F) % 60 < 100 := by
    have : N / (60 * F) % 60 < 60 := Nat.mod_lt _ (by norm_num)
    omega
  have hs : N / F % 60 < 100 := by
    have : N / F % 60 < 60 := Nat.mod_lt _ (by norm_num)
    omega
  have hf : N % F < 1000 := by
    have : N % F < F := Nat.mod_lt _ (by omega)
    omega
  exact parse_formatTC delim hh hm hs hf hdelim

/-- C1 (amended): the round trip returns the original frame for every
frame number whose formatted timecode parses back, i.e. whenever the
rounded rate is between 1 and 1000 and the (drop-adjusted) frame number
stays below a thousand hours. -/
theorem round_trip_amended (n : ℕ) (fps : ℚ) (drop : Bool)
    (hdrop : drop = true → fps = 29.97 ∨ fps = 59.94)
    (hF1 : 1 ≤ fpsInt fps) (hF2 : fpsInt fps ≤ 1000)
    (hb : adjustedFrame n fps drop < 3600 * fpsInt fps * 1000) :
    tcfRoundTrip n fps drop = .ok (n : ℤ) := by
  have hg : ¬(drop = true ∧ ¬(fps = 29.97 ∨ fps = 59.94)) := by
    rintro ⟨h1, h2⟩
    exact h2 (hdrop h1)
  have ht : timecode_from_frame n fps drop = .ok (tffCore (adjustedFrame n fps drop)
      (fpsInt fps) (if drop then DROP_FRAME_DELIMITER else NON_DROP_FRAME_DELIMITER)) := by
    unfold timecode_from_frame
    rw [if_neg hg]
  unfold tcfRoundTrip
  rw [ht]
  show frame_from_timecode _ fps drop = _
  unfold frame_from_timecode
  rw [if_neg hg]
  rw [tffCore_parse _ (by omega) hF2 hb (by cases drop <;> decide)]
  simp only [frame_from_timecode_tuple]
  cases drop with
  | false =>
    simp only [Bool.false_eq_true, if_false]
    have hN : adjustedFrame n fps false = n := rfl
    rw [hN]
    rw [(base_split n (fpsInt fps)).1]
    simp
  | true =>
    simp only [if_true]
    rcases hdrop rfl with hfps | hfps <;> subst hfps
    · -- 29.97: F = 30, D = 2
      have hFv : fpsInt (29.97 : ℚ) = 30 := by decide
      have hDv : dropFramesPerMin (29.97 : ℚ) = 2 := by decide
      have hP10 : pyRoundNat ((29.97 : ℚ) * 600) = 17982 := by decide
      have hNform : adjustedFrame n 29.97 true =
          n + (if 2 < n % 17982 then 2 * 9 * (n / 17982) + 2 * ((n % 17982 - 2) / 1798)
               else 2 * 9 * (n / 17982)) := by
        show dropAdjust n 29.97 = _
        unfold dropAdjust
        rw [hDv, hP10, hFv]
      set N := adjustedFrame n 29.97 true with hNdef
      have hadd := drop_add_eq30 n _ N rfl hNform
      rw [hFv, hDv]
      have hsplit := base_split N 30
      rw [hsplit.2, hsplit.1]
      refine congrArg Except.ok ?_
      omega
    · -- 59.94: F = 60, D = 4
      have hFv : fpsInt (59.94 : ℚ) = 60 := by decide
      have hDv : dropFramesPerMin (59.94 : ℚ) = 4 := by decide
      have hP10 : pyRoundNat ((59.94 : ℚ) * 600) = 35964 := by decide
      have hNform : adjustedFrame n 59.94 true =
          n + (if 4 < n % 35964 then 4 * 9 * (n / 35964) + 4 * ((n % 35964 - 4) / 3596)
               else 4 * 9 * (n / 35964)) := by
        show dropAdjust n 59.94 = _
        unfold dropAdjust
        rw [hDv, hP10, hFv]
      set N := adjustedFrame n 59.94 true with hNdef
      have hadd := drop_add_eq60 n _ N rfl hNform
      rw [hFv, hDv]
      have hsplit := base_split N 60
      rw [hsplit.2, hsplit.1]
      refine congrArg Except.ok ?_
      omega

/-- C1, counterexample: at 24 fps non-drop, frame 86400000 formats as
`"1000:00:00:00"`, whose 4-digit hours field is misread by the 2–3 digit
scan (`100` and a dropped `0`), so the round trip returns 8640000 instead
of the original frame: the claim fails for timecodes of 1000 hours or
more. -/
theorem round_trip_counterexample :
    tcfRoundTrip 86400000 24 false = .ok (8640000 : ℤ) ∧
      tcfRoundTrip 86400000 24 false ≠ .ok (86400000 : ℤ) := by decide

/-- C1, witness for `round_trip_amended` at frame 1800, 29.97 fps drop. -/
theorem round_trip_amended_witness :
    tcfRoundTrip 1800 (29.97 : ℚ) true = .ok (1800 : ℤ) :=
  round_trip_amended 1800 29.97 true (fun _ => Or.inl rfl) (by decide) (by decide) (by decide)

/-- C6: in non-drop mode `frame_from_timecode` computes
`hours*3600*F + minutes*60*F + seconds*F + frames` with `F = round(fps)`,
and the concrete vector `"14:17:20:07"` at 24 fps maps to 1234567 in both
directions. -/
theorem nondrop_frame_formula :
    (∀ (h m s f : ℕ) (fps : ℚ),
      frame_from_timecode_tuple (h, m, s, f) fps false
        = (h : ℤ) * 3600 * (fpsInt fps : ℤ) + (m : ℤ) * 60 * (fpsInt fps : ℤ)
          + (s : ℤ) * (fpsInt fps : ℤ) + (f : ℤ))
    ∧ frame_from_timecode "14:17:20:07" 24 false = .ok (1234567 : ℤ)
    ∧ timecode_from_frame 1234567 24 false = .ok "14:17:20:07" := by
  refine ⟨?_, by decide, by decide⟩
  intro h m s f fps
  simp only [frame_from_timecode_tuple, Bool.false_eq_true, if_false]
  push_cast
  ring

/-- C7: drop-frame jump at the first minute boundary for 29.97 fps:
frame 1799 renders as `00:00:59;29` and frame 1800 as `00:01:00;02`,
with `;` as the frames delimiter. -/
theorem drop_frame_minute_boundary :
    timecode_from_frame 1799 29.97 true = .ok "00:00:59;29" ∧
      timecode_from_frame 1800 29.97 true = .ok "00:01:00;02" := by decide

/-- C2 (code bug): the `FCM:` branch compares the second
whitespace-delimited token with the two-word string `"DROP FRAME"`, which
can never match (`split()` yields `"DROP"`), so a `FCM: DROP FRAME` line
is silently accepted and parsing succeeds instead of raising the
unsupported-feature error. -/
theorem fcm_drop_frame_not_raised :
    (pySplit "FCM: DROP FRAME")[1]? = some "DROP" ∧
      readCmxEdl 24 false ["FCM: DROP FRAME"] = .ok initPState := by decide

/-- C4 (code bug): `Timecode.__init__` extracts the four numeric fields
with a delimiter-agnostic scan and has no drop-frame-mismatch check, so a
drop-frame-delimited string with `drop=False` constructs successfully
instead of raising. -/
theorem drop_delimiter_conflict_not_raised :
    Timecode.init "11:22:33;22" 24 false =
      .ok { hours := 11, minutes := 22, seconds := 33, frames := 22,
            fps := 24, drop := false } := by decide

/-- C5, counterexample: at `fps = 24.4` the frames field 24 satisfies
`frames ≥ round(fps) = 24`, so the claim demands a frame-rate violation,
but the source compares against the exact rate (`24 < 24.4`) and accepts
the timecode. -/
theorem frame_rate_check_counterexample :
    Timecode.init "00:00:00:24" (24.4 : ℚ) false =
      .ok { hours := 0, minutes := 0, seconds := 0, frames := 24,
            fps := 24.4, drop := false }
    ∧ pyRoundNat (24.4 : ℚ) = 24 := by decide

/-- C5 (amended): for a string that parses into four fields, construction
succeeds iff minutes and seconds are below 60 and the frames field is
below the exact (unrounded) fps; the frame-rate violation is raised iff
minutes/seconds are in range and `frames ≥ fps`; the value violation is
raised iff minutes or seconds is 60 or more.  Hours are unrestricted
(any hours value, e.g. above 24, is accepted when the rest is in range). -/
theorem timecode_init_checks (s : String) (fps : ℚ) (drop : Bool) (h m sec f : ℕ)
    (hp : parse_timecode s = some (h, m, sec, f)) :
    (Timecode.init s fps drop
        = .ok { hours := h, minutes := m, seconds := sec, frames := f, fps := fps, drop := drop }
      ↔ m < 60 ∧ sec < 60 ∧ (f : ℚ) < fps)
    ∧ (Timecode.init s fps drop = .error .badFrameRate
      ↔ m < 60 ∧ sec < 60 ∧ fps ≤ (f : ℚ))
    ∧ (Timecode.init s fps drop = .error .valueError ↔ 60 ≤ m ∨ 60 ≤ sec) := by
  have hinit : Timecode.init s fps drop = Timecode.checks h m sec f fps drop := by
    unfold Timecode.init
    rw [hp]
  rw [hinit]
  unfold Timecode.checks
  split_ifs with h1 h2 h3
  · refine ⟨by simp; omega, by simp; omega, by simp; omega⟩
  · refine ⟨by simp; omega, by simp; omega, by simp; omega⟩
  · rw [ge_iff_le] at h3
    have hnlt : ¬((f : ℚ) < fps) := not_lt.mpr h3
    refine ⟨by simp; tauto, ?_, by simp; omega⟩
    simp only [true_iff, iff_true]
    exact ⟨by omega, by omega, h3⟩
  · rw [ge_iff_le, not_le] at h3
    refine ⟨?_, ?_, ?_⟩
    · simp only [Except.ok.injEq, Timecode.mk.injEq]
      constructor
      · intro _
        exact ⟨by omega, by omega, h3⟩
      · intro _
        tauto
    · simp only [false_iff, not_and, not_le]
      intro _ _
      exact h3
    · simp
      omega

/-- C5, witness for `timecode_init_checks` on `"103:12:33:07"` at 24 fps
(a multi-day 103-hour timecode). -/
theorem timecode_init_checks_witness :
    (Timecode.init "103:12:33:07" 24 false
        = .ok { hours := 103, minutes := 12, seconds := 33, frames := 7,
                fps := 24, drop := false }
      ↔ 12 < 60 ∧ 33 < 60 ∧ ((7 : ℕ) : ℚ) < 24)
    ∧ (Timecode.init "103:12:33:07" 24 false = .error .badFrameRate
      ↔ 12 < 60 ∧ 33 < 60 ∧ (24 : ℚ) ≤ ((7 : ℕ) : ℚ))
    ∧ (Timecode.init "103:12:33:07" 24 false = .error .valueError ↔ 60 ≤ 12 ∨ 60 ≤ 33) :=
  timecode_init_checks "103:12:33:07" 24 false 103 12 33 7 (by decide)

theorem splitWs_cons_nonws {c : Char} (l : List Char) (hc : c.isWhitespace = false) :
    ∃ tok toks, splitWs (c :: l) = (c :: tok) :: toks := by
  rcases h : splitWsCore l with ⟨tok, toks⟩
  refine ⟨tok, toks, ?_⟩
  simp [splitWs, splitWsCore, h, hc]

theorem strStartsWith_head {p s : String} {c : Char} {pt : List Char}
    (hp : p.data = c :: pt) (h : strStartsWith p s = true) :
    ∃ tl, s.data = c :: tl := by
  unfold strStartsWith at h
  rw [hp] at h
  match hs : s.data with
  | [] =>
    rw [hs] at h
    simp [List.isPrefixOf] at h
  | b :: bs =>
    rw [hs] at h
    simp only [List.isPrefixOf, Bool.and_eq_true, beq_iff_eq] at h
    exact ⟨bs, by rw [h.1]⟩

/-- If the first token of a line starts with character `c0`, the line does
not start with a prefix whose first character differs from `c0`. -/
theorem first_token_excludes_keyword (p : String) {line t0 : String} {rest : List String}
    {c0 c : Char} {pt : List Char}
    (htoks : pySplit line = t0 :: rest)
    (hhead : t0.data.head? = some c0)
    (hp : p.data = c :: pt) (hne : c0 ≠ c) (hws : c.isWhitespace = false) :
    strStartsWith p line = false := by
  by_contra hcon
  rw [Bool.not_eq_false] at hcon
  obtain ⟨tl, hdata⟩ := strStartsWith_head hp hcon
  obtain ⟨tok, toks, hsplit⟩ := splitWs_cons_nonws tl hws
  unfold pySplit at htoks
  rw [hdata, hsplit] at htoks
  simp only [List.map_cons, List.cons.injEq] at htoks
  have : t0.data = c :: tok := by
    rw [← htoks.1]
  rw [this] at hhead
  simp at hhead
  exact hne hhead.symm

/-- C3 (amended): a nonempty line yielding at least one whitespace token
that matches none of the recognized shapes (`TITLE:`/`FCM:` prefix,
`*`-comment, `M2` retime, numeric first token) is silently skipped: the
parser state is unchanged and no error is raised. -/
theorem unrecognized_line_skipped (fps : ℚ) (useV : Bool) (st : PState)
    (raw t0 : String) (rest : List String)
    (ht : strStartsWith "TITLE:" (normalizeLine raw) = false)
    (hf : strStartsWith "FCM:" (normalizeLine raw) = false)
    (htoks : pySplit (normalizeLine raw) = t0 :: rest)
    (hstar : t0.data.head? ≠ some '*')
    (hm2 : t0 ≠ "M2")
    (hdig : pyIsdigit t0 = false) :
    processLine fps useV st raw = .ok st := by
  have hne : normalizeLine raw ≠ "" := by
    intro hempty
    rw [hempty] at htoks
    simp [pySplit, splitWs, splitWsCore] at htoks
  unfold processLine
  rw [if_neg hne]
  simp only [ht, hf, Bool.false_eq_true, if_false, htoks]
  rw [if_neg hstar, if_neg hm2]
  simp [hdig]

/-- C3, counterexample (to the claim as stated): the unrecognized line
`"FOO BAR"` parses without any error and leaves the list empty, so the
default contract does not raise on unrecognized line shapes. -/
theorem unrecognized_line_no_error :
    readCmxEdl 24 false ["FOO BAR"] = .ok initPState := by decide

/-- C3, witness for `unrecognized_line_skipped` on the line `"FOO BAR"`. -/
theorem unrecognized_line_skipped_witness :
    processLine 24 true initPState "FOO BAR" = .ok initPState :=
  unrecognized_line_skipped 24 true initPState "FOO BAR" "FOO" ["BAR"]
    (by decide) (by decide) (by decide) (by decide) (by decide) (by decide)

/-- C9: a comment line (first token starting with `*`, on an
already-normalized line) is dropped without error when no edit is current,
and is appended verbatim (the full line text) to the current edit's
comments otherwise. -/
theorem comment_line_handling (fps : ℚ) (useV : Bool) (st : PState)
    (raw t0 : String) (rest : List String)
    (hn : normalizeLine raw = raw)
    (htoks : pySplit raw = t0 :: rest)
    (hstar : t0.data.head? = some '*') :
    (st.cur = none → processLine fps useV st raw = .ok st) ∧
    (∀ e, st.cur = some e → processLine fps useV st raw
        = .ok { st with cur := some (e.addComments raw) }) := by
  have hne : raw ≠ "" := by
    intro hempty
    rw [hempty] at htoks
    simp [pySplit, splitWs, splitWsCore] at htoks
  have ht : strStartsWith "TITLE:" raw = false :=
    first_token_excludes_keyword "TITLE:" htoks hstar rfl (by decide) (by decide)
  have hf : strStartsWith "FCM:" raw = false :=
    first_token_excludes_keyword "FCM:" htoks hstar rfl (by decide) (by decide)
  have hred : ∀ st' : PState, processLine fps useV st' raw =
      match st'.cur with
      | none => .ok st'
      | some e => .ok { st' with cur := some (e.addComments raw) } := by
    intro st'
    unfold processLine
    rw [hn, if_neg hne]
    simp only [ht, hf, Bool.false_eq_true, if_false, htoks]
    rw [if_pos hstar]
  constructor
  · intro hcur
    rw [hred st, hcur]
  · intro e hcur
    rw [hred st, hcur]

/-- One parser step preserves `visited = done` when the line is not a
numeric effect/transition line and the visitor is supplied. -/
theorem step_visited_eq_done (fps : ℚ) (raw : String) (st st1 : PState)
    (hline : isNumericEffectLine raw = false)
    (hok : processLine fps true st raw = .ok st1)
    (hinv : st.visited = st.done) : st1.visited = st1.done := by
  simp only [processLine] at hok
  simp only [isNumericEffectLine] at hline
  by_cases h1 : normalizeLine raw = ""
  · rw [if_pos h1] at hok
    obtain rfl : st = st1 := by injection hok
    exact hinv
  rw [if_neg h1] at hok
  rw [if_neg h1] at hline
  by_cases h2 : strStartsWith "TITLE:" (normalizeLine raw) = true
  · rw [if_pos h2] at hok
    split at hok <;>
      (obtain rfl : _ = st1 := by injection hok) <;> exact hinv
  rw [if_neg h2] at hok
  rw [if_neg h2] at hline
  by_cases h3 : strStartsWith "FCM:" (normalizeLine raw) = true
  · rw [if_pos h3] at hok
    match hidx : (pySplit (normalizeLine raw))[1]? with
    | none =>
      rw [hidx] at hok
      exact absurd hok (by simp)
    | some t =>
      rw [hidx] at hok
      simp only [] at hok
      by_cases ht : t = "DROP FRAME"
      · rw [if_pos ht] at hok
        exact absurd hok (by simp)
      · rw [if_neg ht] at hok
        obtain rfl : st = st1 := by injection hok
        exact hinv
  rw [if_neg h3] at hok
  rw [if_neg h3] at hline
  match htoks : pySplit (normalizeLine raw) with
  | [] =>
    rw [htoks] at hok
    exact absurd hok (by simp)
  | t0 :: rest =>
    rw [htoks] at hok
    rw [htoks] at hline
    simp only [] at hok
    simp only [] at hline
    by_cases hstar : t0.data.head? = some '*'
    · rw [if_pos hstar] at hok
      match hcur : st.cur with
      | none =>
        rw [hcur] at hok
        obtain rfl : st = st1 := by injection hok
        exact hinv
      | some e =>
        rw [hcur] at hok
        simp only [] at hok
        obtain rfl : _ = st1 := by injection hok
        exact hinv
    rw [if_neg hstar] at hok
    rw [if_neg hstar] at hline
    by_cases hm2 : t0 = "M2"
    · rw [if_pos hm2] at hok
      match hcur : st.cur with
      | none =>
        rw [hcur] at hok
        exact absurd hok (by simp)
      | some e =>
        rw [hcur] at hok
        simp only [] at hok
        obtain rfl : _ = st1 := by injection hok
        exact hinv
    rw [if_neg hm2] at hok
    rw [if_neg hm2] at hline
    by_cases hdig : pyIsdigit t0 = true
    · rw [if_pos hdig] at hok
      rw [if_pos hdig] at hline
      simp only [if_pos rfl, if_true] at hok
      match hty : (t0 :: rest)[3]? with
      | none =>
        rw [hty] at hok
        exact absurd hok (by simp)
      | some ty =>
        rw [hty] at hok
        rw [hty] at hline
        simp only [] at hok
        simp only [] at hline
        by_cases hc : ty = "C"
        · rw [if_pos hc] at hok
          match hmk : mkEditEvent fps (t0 :: rest) with
          | .error err =>
            rw [hmk] at hok
            exact absurd hok (by simp)
          | .ok ed =>
            rw [hmk] at hok
            simp only [] at hok
            obtain rfl : _ = st1 := by injection hok
            simp only []
            rw [hinv]
        · exact absurd hline (by simp [hc])
    · rw [if_neg hdig] at hok
      obtain rfl : st = st1 := by injection hok
      exact hinv

theorem foldl_visited_eq_done (fps : ℚ) (lines : List String) :
    ∀ st st', (∀ raw ∈ lines, isNumericEffectLine raw = false) →
      st.visited = st.done →
      List.foldlM (processLine fps true) st lines = .ok st' →
      st'.visited = st'.done := by
  induction lines with
  | nil =>
    intro st st' _ hinv hok
    obtain rfl : st = st' := by injection hok
    exact hinv
  | cons l ls ih =>
    intro st st' hall hinv hok
    rw [List.foldlM_cons] at hok
    match hpl : processLine fps true st l with
    | .error e =>
      rw [hpl] at hok
      exact Except.noConfusion hok
    | .ok st1 =>
      rw [hpl] at hok
      exact ih st1 st' (fun r hr => hall r (List.mem_cons_of_mem _ hr))
        (step_visited_eq_done fps l st st1 (hall l (List.mem_cons_self _ _)) hpl hinv) hok

/-- C8 (amended): when every numeric-prefixed line of the input is a cut
(`"C"`) line, a successful parse with a visitor supplied visits exactly
the final edits, once each and in order (so the visitor runs exactly `N`
times for `N` edits, including the end-of-input flush for the last one).
Numeric effect/transition continuation lines are excluded because the
source calls the visitor on every numeric line, which visits the current
edit a second time. -/
theorem visitor_visits_each_edit_once (fps : ℚ) (lines : List String)
    (h : ∀ raw ∈ lines, isNumericEffectLine raw = false) :
    visitedMatchesEdits (readCmxEdl fps true lines) = true := by
  unfold readCmxEdl
  match hfold : List.foldlM (processLine fps true) initPState lines with
  | .error e => rfl
  | .ok st =>
    have hvd : st.visited = st.done :=
      foldl_visited_eq_done fps lines initPState st h rfl hfold
    simp only [Except.map, visitedMatchesEdits, flushVisit, if_pos rfl, if_true, PState.edits]
    rw [hvd]
    simp

/-- C8, counterexample: a cut followed by a numeric `W001` wipe line
parses into one edit, but the visitor is invoked twice (once when the
wipe line is scanned, once at the end-of-input flush), refuting "exactly
N times, no edit visited twice". -/
theorem visitor_double_visit :
    (readCmxEdl 24 true
      ["001 AX V C 00:00:00:00 00:00:00:01 00:00:00:00 00:00:00:01",
       "001 AX V W001 00:00:00:00 00:00:00:01 00:00:00:00 00:00:00:01"]).map
      (fun st => (st.edits.length, st.visited.length)) = .ok (1, 2) := by decide

/-- C8, witness for `visitor_visits_each_edit_once` on a two-cut file. -/
theorem visitor_visits_each_edit_once_witness :
    visitedMatchesEdits (readCmxEdl 24 true
      ["TITLE: DEMO",
       "001 AX V C 00:00:00:00 00:00:00:01 00:00:00:00 00:00:00:01",
       "* a comment",
       "002 AX V C 00:00:00:01 00:00:00:02 00:00:00:01 00:00:00:02"]) = true :=
  visitor_visits_each_edit_once 24 _ (by decide)

theorem dictGet_dictSet (d : List (String × PyVal)) (k : String) (v : PyVal) :
    dictGet (dictSet d k v) k = some v := by
  induction d with
  | nil => simp [dictGet, dictSet]
  | cons p t ih =>
    obtain ⟨k1, v1⟩ := p
    by_cases hk : k1 = k
    · simp [dictGet, dictSet, hk]
    · simp [dictGet, dictSet, hk, ih]

/-- C10: writing a reserved (protected) accessor name through attribute
assignment raises `AttributeError` and produces no event; writing a novel
name (not a reserved accessor, not an internal `_`-slot, not a class
property or method) succeeds, and the value is then readable both as an
attribute of the event and through its metadata map. -/
theorem setattr_reserved_and_novel (e : EditEvent) (name : String) (v : PyVal) :
    (name ∈ protectedAttrs → e.setAttr name v = .error .attributeError) ∧
    (name ∉ protectedAttrs → name ∉ mineAttrs → name ∉ editEventClassAttrs →
      e.setAttr name v = .ok { e with meta_data := dictSet e.meta_data name v } ∧
      EditEvent.getAttr { e with meta_data := dictSet e.meta_data name v } name = .ok v ∧
      dictGet (dictSet e.meta_data name v) name = some v) := by
  constructor
  · intro hp
    unfold EditEvent.setAttr
    rw [if_pos hp]
  · intro hp hm hc
    refine ⟨?_, ?_, dictGet_dictSet e.meta_data name v⟩
    · unfold EditEvent.setAttr
      rw [if_neg hp, if_neg hm]
    · simp only [mineAttrs, List.mem_cons, List.mem_singleton, not_or] at hm
      obtain ⟨m1, m2, m3, m4, m5, m6, m7, m8, m9, m10, m11, -⟩ := hm
      simp only [editEventClassAttrs, List.mem_cons, List.mem_singleton, not_or] at hc
      obtain ⟨c1, c2, c3, c4, c5, c6, c7, c8, c9, c10, c11, c12, c13, c14, c15, -⟩ := hc
      unfold EditEvent.getAttr
      rw [if_neg m1, if_neg m2, if_neg m3, if_neg m4, if_neg m5, if_neg m6, if_neg m7,
        if_neg m8, if_neg m9, if_neg m10, if_neg m11,
        if_neg c1, if_neg c2, if_neg c3, if_neg c4, if_neg c5, if_neg c6, if_neg c7,
        if_neg c8, if_neg c9, if_neg c10]
      rw [if_neg (by simp [editEventClassAttrs]; exact ⟨c1, c2, c3, c4, c5, c6, c7, c8, c9, c10, c11, c12, c13, c14, c15⟩)]
      rw [dictGet_dictSet]

/-- C9, witness for `comment_line_handling`: with no current edit the
comment line is dropped; with a current edit it is appended verbatim. -/
theorem comment_line_handling_witness :
    processLine 24 true initPState "* pure comment" = .ok initPState ∧
    processLine 24 true
        { title := none, done := [], cur := some sampleEvent, visited := [] }
        "* pure comment" =
      .ok { title := none, done := [],
            cur := some (sampleEvent.addComments "* pure comment"), visited := [] } :=
  ⟨(comment_line_handling 24 true initPState "* pure comment" "*" ["pure", "comment"]
      (by decide) (by decide) (by decide)).1 rfl,
   (comment_line_handling 24 true _ "* pure comment" "*" ["pure", "comment"]
      (by decide) (by decide) (by decide)).2 sampleEvent rfl⟩

/-- C10, witness for `setattr_reserved_and_novel`: the reserved name `id`
is refused; the novel name `shot_name` lands in the metadata map and reads
back both ways. -/
theorem setattr_reserved_and_novel_witness :
    (sampleEvent.setAttr "id" (.int 99) = .error .attributeError) ∧
    (sampleEvent.setAttr "shot_name" (.str "SH001") =
        .ok { sampleEvent with
              meta_data := dictSet sampleEvent.meta_data "shot_name" (.str "SH001") } ∧
      EditEvent.getAttr
          { sampleEvent with
            meta_data := dictSet sampleEvent.meta_data "shot_name" (.str "SH001") }
          "shot_name" = .ok (.str "SH001") ∧
      dictGet (dictSet sampleEvent.meta_data "shot_name" (.str "SH001")) "shot_name"
        = some (.str "SH001")) :=
  ⟨(setattr_reserved_and_novel sampleEvent "id" (.int 99)).1 (by decide),
   (setattr_reserved_and_novel sampleEvent "shot_name" (.str "SH001")).2
     (by decide) (by decide) (by decide)⟩

end Edl

